import Mathlib

/-!
Verification of the lattice translation engine (`xtrack/mad_loader.py`).

The Python source is shallowly embedded: numeric parameter values are
rationals, a parameter that may carry a symbolic expression is a `Value`
(a literal, or an expression node together with its current numeric
value), source records are `MadElem` structures, and the per-type
conversion rules, the `iter_elements` state machine and the `make_line`
dispatch are explicit Lean functions.  Only the element types and
converters that the verified properties touch are embedded; the
dispatch table marks every other type as unsupported, exactly as the
source does for types without a `convert_`/`add_` method.
-/

namespace MadLoader

/-- Embedding of a scalar parameter: either a plain numeric literal or a
symbolic expression node carrying its current numeric value
(`x._value` / `x._get_value()` in the source). -/
inductive Value where
  | num  (q : ℚ)
  | expr (v : ℚ)
  deriving DecidableEq, Repr

/-- Embeds `is_expr` (mad_loader.py:133): true exactly on expression nodes. -/
def is_expr : Value → Bool
  | .expr _ => true
  | .num _ => false

/-- Embeds `nonzero_or_expr` (mad_loader.py:137): an expression node is
always "nonzero", a literal is tested numerically. -/
def nonzero_or_expr (x : Value) : Bool :=
  if is_expr x then
    true
  else
    match x with
    | .num q => decide (q ≠ 0)
    | .expr v => decide (v ≠ 0)

/-- Embeds `value_if_expr` (mad_loader.py:144): the current numeric value
of an expression node, the literal otherwise. -/
def value_if_expr : Value → ℚ
  | .expr v => v
  | .num q => q

/-- Embeds `get_value` (mad_loader.py:65) restricted to scalars: evaluates
an expression node, returns a literal unchanged. -/
def get_value : Value → ℚ
  | .expr v => v
  | .num q => q

/-- Truthiness of a `Value` as Python's `if mad_el.l:` sees it through
`MadElem.__getattr__`: an expression object is truthy, a number is
truthy iff nonzero.  (This is the behaviour the module docstring warns
about; it coincides with `nonzero_or_expr`.) -/
def truthy (x : Value) : Bool := nonzero_or_expr x

/-- Embedding of a MAD-X `align_errors` record (the fields the loader reads). -/
structure AlignErrors where
  dx : ℚ
  dy : ℚ
  dpsi : ℚ
  arex : ℚ
  arey : ℚ
  deriving DecidableEq, Repr

/-- Embeds `FieldErrors` (mad_loader.py:170): the `dkn`/`dks` arrays. -/
structure FieldErrors where
  dkn : List ℚ
  dks : List ℚ
  deriving DecidableEq, Repr

/-- Embedding of `MadElem` (mad_loader.py:182): one source record as the
adapter exposes it.  `l` is a `Value` because the length may carry an
expression; list-valued strengths are kept as evaluated rationals.
Attributes that a record may lack (`aperture`, `aper_vx`, `aper_vy`,
probed with `hasattr`) are `Option`s. -/
structure MadElem where
  name : String
  type : String
  l : Value
  aperture : Option (List ℚ) := none
  aper_vx : Option (List ℚ) := none
  aper_vy : Option (List ℚ) := none
  aper_offset : List ℚ := [0]
  aper_tilt : ℚ := 0
  apertype : String := "circle"
  align_errors : Option AlignErrors := none
  tilt : ℚ := 0
  angle : ℚ := 0
  knl : List ℚ := []
  ksl : List ℚ := []
  field_errors : Option FieldErrors := none
  lrad : ℚ := 0
  ks : ℚ := 0
  ksi : ℚ := 0
  deriving DecidableEq, Repr

namespace MadElem

/-- Embeds `MadElem.has_aperture` (mad_loader.py:262): a present `aperture`
array whose first entry is nonzero or which has more than one entry, or a
present `aper_vx` array with more than two entries. -/
def has_aperture (e : MadElem) : Bool :=
  (match e.aperture with
   | some ap => decide (ap.headD 0 ≠ 0) || decide (ap.length > 1)
   | none => false)
  ||
  (match e.aper_vx with
   | some vx => decide (vx.length > 2)
   | none => false)

/-- Embeds `MadElem.is_empty_marker` (mad_loader.py:270). -/
def is_empty_marker (e : MadElem) : Bool :=
  e.type == "marker" && !e.has_aperture

/-- Embeds `MadElem.same_aperture` (mad_loader.py:273): equality of the six
aperture-describing attributes. -/
def same_aperture (e o : MadElem) : Bool :=
  e.aperture == o.aperture
  && e.aper_offset == o.aper_offset
  && e.aper_tilt == o.aper_tilt
  && e.aper_vx == o.aper_vx
  && e.aper_vy == o.aper_vy
  && e.apertype == o.apertype

/-- Field-error accumulation inside `merge_multipole`: the source loops
`for ii in range(len(self.dkn)): self.dkn[ii] += other.dkn[ii]`, which
raises `IndexError` when `other`'s array is shorter; `none` models that
exception. -/
def merge_field_errors (fe ofe : FieldErrors) : Option FieldErrors :=
  if ofe.dkn.length < fe.dkn.length || ofe.dks.length < fe.dks.length then
    none
  else
    some { dkn := fe.dkn.zipWith (fun a b => a + b) ofe.dkn,
           dks := fe.dks.zipWith (fun a b => a + b) ofe.dks }

/-- Embeds `MadElem.merge_multipole` (mad_loader.py:283).  On a compatible
pair it returns `(true, mutated self)`; note that `self.knl += other.knl`
acts on Python *lists*, so the strengths are **concatenated**, not added
elementwise.  On an incompatible pair it returns `(false, self)` with
`self` untouched.  `none` models the `IndexError` the field-error loop
can raise. -/
def merge_multipole (self other : MadElem) : Option (Bool × MadElem) :=
  if self.same_aperture other
      && self.align_errors == other.align_errors
      && self.tilt == other.tilt
      && self.angle == other.angle then
    let merged := { self with
      knl := self.knl ++ other.knl,
      ksl := self.ksl ++ other.ksl,
      name := self.name ++ "_" ++ other.name }
    match self.field_errors, other.field_errors with
    | some fe, some ofe =>
      match merge_field_errors fe ofe with
      | none => none
      | some fe2 => some (true, { merged with field_errors := some fe2 })
    | _, _ => some (true, merged)
  else
    some (false, self)

end MadElem

/-- Embeds `add_lists` (mad_loader.py:104): elementwise sum of two lists up
to `length`, reading a missing entry as 0 (the zero-padding the spec
describes).  Guarded `getD` equals the guarded indexing of the source. -/
def add_lists (a b : List ℚ) (length : ℕ) : List ℚ :=
  (List.range length).map fun ii =>
    if ii < a.length && ii < b.length then a.getD ii 0 + b.getD ii 0
    else if ii < a.length then a.getD ii 0
    else if ii < b.length then b.getD ii 0
    else 0

/-- A compatible multipole pair used to evaluate `merge_multipole`: all
merge-relevant attributes are identical, the kick strengths differ. -/
def merge_self : MadElem :=
  { name := "m1", type := "multipole", l := .num 0, knl := [1] }

/-- Partner element for the `merge_multipole` evaluation. -/
def merge_other : MadElem :=
  { name := "m2", type := "multipole", l := .num 0, knl := [2] }

/-- C1: evaluating `merge_multipole` on two compatible multipoles with
`knl = [1]` and `knl = [2]`.  The merge succeeds and concatenates the
lists (`self.knl += other.knl` on Python lists), producing `knl = [1, 2]`,
which is not the elementwise sum `[3]` that the claim (and the source's
own `add_lists` helper, used for exactly this accumulation elsewhere)
prescribes. -/
theorem merge_multipole_concatenates_not_sums :
    MadElem.merge_multipole merge_self merge_other
      = some (true, { merge_self with name := "m1_m2", knl := [1, 2] }) ∧
    ¬ ({ merge_self with name := "m1_m2", knl := [1, 2] } : MadElem).knl
        = add_lists merge_self.knl merge_other.knl
            (max merge_self.knl.length merge_other.knl.length) := by
  constructor
  · rfl
  · intro h
    have hlen := congrArg List.length h
    simp [add_lists, merge_self, merge_other] at hlen

/-- Claim C7's element: trivial shape array (`[0]`, one entry, zero) and a
polygon-vertex array with exactly two entries. -/
def two_vertex_elem : MadElem :=
  { name := "p1", type := "marker", l := .num 0,
    aperture := some [0], aper_vx := some [1, 2], aper_vy := some [3, 4] }

/-- C7 counterexample: on an element with a trivial shape array and exactly
2 polygon-vertex entries, the claim ("at least 2 polygon vertices" implies
has-aperture) predicts `true`, but `has_aperture` (which requires strictly
more than 2 entries) returns `false`. -/
theorem has_aperture_two_vertices_counterexample :
    (∃ vx, two_vertex_elem.aper_vx = some vx ∧ 2 ≤ vx.length) ∧
    MadElem.has_aperture two_vertex_elem = false := by
  refine ⟨⟨[1, 2], rfl, by decide⟩, by decide⟩

/-- C7 amended: `has_aperture` is true exactly when the record carries a
shape array with nonzero first entry or more than one entry, or a
polygon-vertex array with more than 2 entries (at least 3); and
`is_empty_marker` is true iff the type is "marker" and `has_aperture` is
false. -/
theorem has_aperture_characterization (e : MadElem) :
    (MadElem.has_aperture e = true ↔
      ((∃ ap, e.aperture = some ap ∧ (ap.headD 0 ≠ 0 ∨ 1 < ap.length)) ∨
       (∃ vx, e.aper_vx = some vx ∧ 2 < vx.length))) ∧
    (MadElem.is_empty_marker e = true ↔
      (e.type = "marker" ∧ ¬ MadElem.has_aperture e = true)) := by
  constructor
  · cases hap : e.aperture with
    | none =>
      cases hvx : e.aper_vx with
      | none => simp [MadElem.has_aperture, hap, hvx]
      | some vx => simp [MadElem.has_aperture, hap, hvx]
    | some ap =>
      cases hvx : e.aper_vx with
      | none => simp [MadElem.has_aperture, hap, hvx]
      | some vx => simp [MadElem.has_aperture, hap, hvx]
  · simp [MadElem.is_empty_marker]

/-- Errors raised by `MadLoader._assert_element_is_thin`
(mad_loader.py:748): `NotImplementedError` for a thick element whose type
has no thick conversion, `ValueError` for a thick element while thick
support is disabled. -/
inductive ThinError where
  | notImplemented (msg : String)
  | valueError (msg : String)
  deriving DecidableEq, Repr

/-- Message of the `NotImplementedError` raised when `allow_thick` is on
but the element type has no thick conversion (mad_loader.py:751). -/
def thick_not_supported_msg (name : String) (hierarchy : List String) : String :=
  "Cannot load element " ++ name ++ ", as thick elements of type "
    ++ String.intercalate "/" hierarchy ++ " are not yet supported."

/-- Message of the `ValueError` raised when a thick element is met while
thick support is disabled (mad_loader.py:757). -/
def thick_disabled_msg (name : String) : String :=
  "Element " ++ name
    ++ " is thick, but importing thick elements is disabled. Did you forget to set `allow_thick=True`?"

/-- Embeds `MadLoader._assert_element_is_thin` (mad_loader.py:748), with
the element's name and type hierarchy passed explicitly (the function
reads only `mad_el.l`, `mad_el.name` and `mad_el.get_type_hierarchy()`).
`none` means no exception. -/
def assert_element_is_thin (name : String) (hierarchy : List String)
    (l : Value) (allow_thick : Bool) : Option ThinError :=
  if value_if_expr l ≠ 0 then
    if allow_thick then
      some (.notImplemented (thick_not_supported_msg name hierarchy))
    else
      some (.valueError (thick_disabled_msg name))
  else
    none

/-- C6: the thin-element check never raises when the length evaluates to
zero; for a nonzero length it raises the thick-policy `ValueError` (whose
message contains "allow_thick=True") when thick support is disabled, and
the unsupported-thick-type `NotImplementedError` when thick support is
enabled. -/
theorem assert_element_is_thin_spec (name : String) (hierarchy : List String)
    (l : Value) (allow_thick : Bool) :
    (value_if_expr l = 0 →
      assert_element_is_thin name hierarchy l allow_thick = none) ∧
    (value_if_expr l ≠ 0 → allow_thick = false →
      assert_element_is_thin name hierarchy l allow_thick
        = some (.valueError (thick_disabled_msg name)) ∧
      ∃ a b, thick_disabled_msg name = a ++ "allow_thick=True" ++ b) ∧
    (value_if_expr l ≠ 0 → allow_thick = true →
      assert_element_is_thin name hierarchy l allow_thick
        = some (.notImplemented (thick_not_supported_msg name hierarchy))) := by
  refine ⟨fun h0 => ?_, fun hne hat => ⟨?_, ?_⟩, fun hne hat => ?_⟩
  · simp [assert_element_is_thin, h0]
  · simp [assert_element_is_thin, hne, hat]
  · refine ⟨"Element " ++ name
      ++ " is thick, but importing thick elements is disabled. Did you forget to set `",
      "`?", ?_⟩
    rw [thick_disabled_msg, String.append_assoc, String.append_assoc,
      String.append_assoc]
    refine congrArg (fun t => "Element " ++ t) (congrArg (fun t => name ++ t) ?_)
    decide
  · simp [assert_element_is_thin, hne, hat]

/-- C6 witness: concrete evaluations of the thin-element check — a
zero-valued expression length raises nothing, length 1 with thick support
disabled raises the `ValueError`, and with thick support enabled the
`NotImplementedError`. -/
theorem assert_element_is_thin_spec_witness :
    assert_element_is_thin "el" ["octupole"] (.expr 0) false = none ∧
    (assert_element_is_thin "el" ["octupole"] (.num 1) false
        = some (.valueError (thick_disabled_msg "el")) ∧
     ∃ a b, thick_disabled_msg "el" = a ++ "allow_thick=True" ++ b) ∧
    assert_element_is_thin "el" ["octupole"] (.num 1) true
      = some (.notImplemented (thick_not_supported_msg "el" ["octupole"])) :=
  ⟨(assert_element_is_thin_spec "el" ["octupole"] (.expr 0) false).1 rfl,
   (assert_element_is_thin_spec "el" ["octupole"] (.num 1) false).2.1
     (by decide) rfl,
   (assert_element_is_thin_spec "el" ["octupole"] (.num 1) true).2.2
     (by decide) rfl⟩

/-- Reference form of the decimal digit-character list of a natural
number, used to reason about core's fuelled `Nat.toDigitsCore`. -/
def decimal_digits (n : ℕ) : List Char :=
  if h : n < 10 then [Nat.digitChar n]
  else decimal_digits (n / 10) ++ [Nat.digitChar (n % 10)]
  decreasing_by exact Nat.div_lt_self (by omega) (by omega)

theorem decimal_digits_lt (n : ℕ) (h : n < 10) :
    decimal_digits n = [Nat.digitChar n] := by
  rw [decimal_digits, dif_pos h]

theorem decimal_digits_ge (n : ℕ) (h : ¬ n < 10) :
    decimal_digits n = decimal_digits (n / 10) ++ [Nat.digitChar (n % 10)] := by
  conv_lhs => rw [decimal_digits]
  rw [dif_neg h]

theorem decimal_digits_ne_nil (n : ℕ) : decimal_digits n ≠ [] := by
  by_cases h : n < 10
  · rw [decimal_digits_lt n h]
    simp
  · rw [decimal_digits_ge n h]
    simp

theorem digitChar_inj_lt :
    ∀ a < 10, ∀ b < 10, Nat.digitChar a = Nat.digitChar b → a = b := by
  decide

theorem toDigitsCore_eq_decimal_digits :
    ∀ (fuel n : ℕ) (ds : List Char), n < fuel →
      Nat.toDigitsCore 10 fuel n ds = decimal_digits n ++ ds := by
  intro fuel
  induction fuel with
  | zero => intro n ds h; omega
  | succ fuel ih =>
    intro n ds h
    by_cases hz : n / 10 = 0
    · have hn : n < 10 := by omega
      rw [Nat.toDigitsCore, if_pos hz, decimal_digits_lt n hn,
        Nat.mod_eq_of_lt hn]
      rfl
    · have h10 : ¬ n < 10 := by omega
      have hlt : n / 10 < fuel := by omega
      rw [Nat.toDigitsCore, if_neg hz, ih (n / 10) _ hlt,
        decimal_digits_ge n h10, List.append_assoc]
      rfl

theorem decimal_digits_injective :
    ∀ m n, decimal_digits m = decimal_digits n → m = n := by
  intro m
  induction m using Nat.strong_induction_on with
  | _ m ih =>
    intro n h
    by_cases hm : m < 10 <;> by_cases hn : n < 10
    · rw [decimal_digits_lt m hm, decimal_digits_lt n hn] at h
      exact digitChar_inj_lt m hm n hn (by simpa using h)
    · exfalso
      rw [decimal_digits_lt m hm, decimal_digits_ge n hn] at h
      have hlen := congrArg List.length h
      have hpos : 0 < (decimal_digits (n / 10)).length :=
        List.length_pos.mpr (decimal_digits_ne_nil _)
      simp only [List.length_append, List.length_cons, List.length_nil] at hlen
      omega
    · exfalso
      rw [decimal_digits_ge m hm, decimal_digits_lt n hn] at h
      have hlen := congrArg List.length h
      have hpos : 0 < (decimal_digits (m / 10)).length :=
        List.length_pos.mpr (decimal_digits_ne_nil _)
      simp only [List.length_append, List.length_cons, List.length_nil] at hlen
      omega
    · rw [decimal_digits_ge m hm, decimal_digits_ge n hn] at h
      obtain ⟨h1, h2⟩ := List.append_inj' h (by simp)
      have hdig : m % 10 = n % 10 :=
        digitChar_inj_lt (m % 10) (Nat.mod_lt _ (by omega)) (n % 10)
          (Nat.mod_lt _ (by omega)) (by simpa using h2)
      have hdiv : m / 10 = n / 10 :=
        ih (m / 10) (Nat.div_lt_self (by omega) (by omega)) (n / 10) h1
      omega

theorem nat_repr_injective : Function.Injective Nat.repr := by
  intro m n h
  have hm : Nat.toDigits 10 m = decimal_digits m := by
    simpa [Nat.toDigits] using
      toDigitsCore_eq_decimal_digits (m + 1) m [] (Nat.lt_succ_self m)
  have hn : Nat.toDigits 10 n = decimal_digits n := by
    simpa [Nat.toDigits] using
      toDigitsCore_eq_decimal_digits (n + 1) n [] (Nat.lt_succ_self n)
  have hd : decimal_digits m = decimal_digits n := by
    have h2 := congrArg String.data h
    simpa [Nat.repr, hm, hn, List.asString] using h2
  exact decimal_digits_injective m n hd

/-- Candidate name `f"{name}:{ii}"` tried by `generate_repeated_name`
(mad_loader.py:163). -/
def numbered_name (name : String) (ii : ℕ) : String :=
  name ++ ":" ++ Nat.repr ii

theorem numbered_name_injective (name : String) :
    Function.Injective (numbered_name name) := by
  intro i j h
  apply nat_repr_injective
  apply String.ext
  have h2 := congrArg String.data h
  simpa [numbered_name] using h2

/-- Fuel-bounded form of the `while` loop inside `generate_repeated_name`
(mad_loader.py:162-164): starting from index `ii`, advance while the
candidate name is already a key of the line.  `line.length + 1` units of
fuel always suffice, because the candidates are pairwise distinct. -/
def repeated_name_loop (line : List String) (name : String) : ℕ → ℕ → ℕ
  | 0, ii => ii
  | fuel + 1, ii =>
    if numbered_name name ii ∈ line then
      repeated_name_loop line name fuel (ii + 1)
    else ii

/-- Embeds `generate_repeated_name` (mad_loader.py:160), with the line's
`element_dict` keys modelled as the list of inserted names. -/
def generate_repeated_name (line : List String) (name : String) : String :=
  if name ∈ line then
    numbered_name name (repeated_name_loop line name (line.length + 1) 0)
  else name

theorem repeated_name_loop_spec (line : List String) (name : String) :
    ∀ fuel ii,
      (∃ j, ii ≤ j ∧ j < ii + fuel ∧ numbered_name name j ∉ line) →
      ii ≤ repeated_name_loop line name fuel ii ∧
      numbered_name name (repeated_name_loop line name fuel ii) ∉ line ∧
      ∀ j, ii ≤ j → j < repeated_name_loop line name fuel ii →
        numbered_name name j ∈ line := by
  intro fuel
  induction fuel with
  | zero =>
    intro ii h
    obtain ⟨j, h1, h2, _⟩ := h
    omega
  | succ fuel ih =>
    intro ii h
    by_cases hmem : numbered_name name ii ∈ line
    · have hex : ∃ j, ii + 1 ≤ j ∧ j < (ii + 1) + fuel ∧
          numbered_name name j ∉ line := by
        obtain ⟨j, h1, h2, h3⟩ := h
        have : j ≠ ii := fun hji => h3 (hji ▸ hmem)
        exact ⟨j, by omega, by omega, h3⟩
      obtain ⟨hk1, hk2, hk3⟩ := ih (ii + 1) hex
      rw [repeated_name_loop, if_pos hmem]
      refine ⟨by omega, hk2, fun j hj1 hj2 => ?_⟩
      by_cases hji : j = ii
      · exact hji ▸ hmem
      · exact hk3 j (by omega) hj2
    · rw [repeated_name_loop, if_neg hmem]
      exact ⟨Nat.le_refl _, hmem, fun j h1 h2 => by omega⟩

theorem exists_free_numbered_name (line : List String) (name : String) :
    ∃ j, j ≤ line.length ∧ numbered_name name j ∉ line := by
  by_contra hcon
  push_neg at hcon
  have hsub : Finset.image (numbered_name name)
      (Finset.range (line.length + 1)) ⊆ line.toFinset := by
    intro s hs
    rw [Finset.mem_image] at hs
    obtain ⟨j, hj, rfl⟩ := hs
    exact List.mem_toFinset.2
      (hcon j (Nat.lt_succ_iff.mp (Finset.mem_range.mp hj)))
  have hcard := Finset.card_le_card hsub
  rw [Finset.card_image_of_injective _ (numbered_name_injective name),
    Finset.card_range] at hcard
  have hlt := List.toFinset_card_le line
  omega

/-- C3: every emitted name is fresh: a base name not yet present is kept,
a colliding base name receives the suffix `:k` for the first unused index
`k` (so suffixes are assigned in first-seen order `:0`, `:1`, ...), and
in both cases the returned name is not already in the collection, so no
insertion overwrites an existing entry. -/
theorem generate_repeated_name_spec (line : List String) (name : String) :
    (name ∉ line → generate_repeated_name line name = name) ∧
    (name ∈ line →
      ∃ k, generate_repeated_name line name = numbered_name name k ∧
        numbered_name name k ∉ line ∧
        ∀ j < k, numbered_name name j ∈ line) ∧
    generate_repeated_name line name ∉ line := by
  have hloop : name ∈ line →
      generate_repeated_name line name
        = numbered_name name (repeated_name_loop line name (line.length + 1) 0) := by
    intro hmem
    rw [generate_repeated_name, if_pos hmem]
  have hex : ∃ j, 0 ≤ j ∧ j < 0 + (line.length + 1) ∧
      numbered_name name j ∉ line := by
    obtain ⟨j, h1, h2⟩ := exists_free_numbered_name line name
    exact ⟨j, by omega, by omega, h2⟩
  obtain ⟨_, hfree, hmin⟩ :=
    repeated_name_loop_spec line name (line.length + 1) 0 hex
  refine ⟨fun hnm => ?_, fun hmem => ?_, ?_⟩
  · rw [generate_repeated_name, if_neg hnm]
  · exact ⟨_, hloop hmem, hfree, fun j hj => hmin j (by omega) hj⟩
  · by_cases hmem : name ∈ line
    · rw [hloop hmem]; exact hfree
    · rw [generate_repeated_name, if_neg hmem]; exact hmem

/-- C3 witness: with `"q"` and `"q:0"` already present, inserting base
name `"q"` assigns the first unused suffix index, and the returned name
is not already in the collection. -/
theorem generate_repeated_name_spec_witness :
    (∃ k, generate_repeated_name ["q", "q:0"] "q" = numbered_name "q" k ∧
      numbered_name "q" k ∉ (["q", "q:0"] : List String) ∧
      ∀ j < k, numbered_name "q" j ∈ (["q", "q:0"] : List String)) ∧
    generate_repeated_name ["q", "q:0"] "q" ∉ (["q", "q:0"] : List String) :=
  ⟨(generate_repeated_name_spec ["q", "q:0"] "q").2.1 (by decide),
   (generate_repeated_name_spec ["q", "q:0"] "q").2.2⟩

/-- Pending slot of `iter_elements`: the `Dummy` sentinel class
(mad_loader.py:536, `type = "None"`) or a held source element. -/
inductive Pending where
  | dummy
  | elem (e : MadElem)
  deriving DecidableEq, Repr

/-- The `.type` attribute as the iteration loop reads it: the `Dummy`
sentinel answers the string `"None"`. -/
def Pending.type : Pending → String
  | .dummy => "None"
  | .elem e => e.type

/-- The `MadLoader` constructor options that the iteration loop, the
compound assembler and the embedded converters consult
(mad_loader.py:582-640, after the `enable_errors` defaulting). -/
structure Config where
  skip_markers : Bool := false
  merge_drifts : Bool := false
  merge_multipoles : Bool := false
  ignore_madtypes : List String := []
  allow_thick : Bool := false
  enable_apertures : Bool := false
  enable_align_errors : Bool := false
  enable_field_errors : Bool := false
  use_compound_elements : Bool := true
  deriving DecidableEq, Repr

/-- Failures of `iter_elements`: the empty-sequence `ValueError`
(mad_loader.py:644) and the `IndexError` the multipole merge can raise. -/
inductive IterError where
  | emptySequence
  | mergeIndexError
  deriving DecidableEq, Repr

/-- Python `+=` of a number onto a possibly-expression value
(`last_element.l += el.l`, mad_loader.py:657): adding to an expression
node yields an expression node whose value is the sum. -/
def Value.addNum (x : Value) (v : ℚ) : Value :=
  match x with
  | .expr w => .expr (w + v)
  | .num q => .num (q + v)

theorem get_value_addNum (x : Value) (v : ℚ) :
    get_value (x.addNum v) = get_value x + v := by
  cases x <;> rfl

/-- Embeds the loop body and terminal flush of `MadLoader.iter_elements`
(mad_loader.py:646-673), the generator's yields collected in order.  The
first argument after the config is the `last_element` pending slot;
note that the terminal yield does not test the slot for the sentinel. -/
def iter_loop (cfg : Config) : Pending → List MadElem → Except IterError (List Pending)
  | last, [] => .ok [last]
  | last, m :: rest =>
    if cfg.skip_markers = true ∧ m.is_empty_marker = true then
      iter_loop cfg last rest
    else if cfg.merge_drifts = true ∧ last.type = "drift" ∧ m.type = "drift" then
      match last with
      | .elem e => iter_loop cfg (.elem { e with l := e.l.addNum (get_value m.l) }) rest
      | .dummy => iter_loop cfg .dummy rest
    else if cfg.merge_multipoles = true ∧ last.type = "multipole"
        ∧ m.type = "multipole" then
      match last with
      | .elem e =>
        match MadElem.merge_multipole e m with
        | none => .error .mergeIndexError
        | some (true, e2) => iter_loop cfg (.elem e2) rest
        | some (false, e2) => do
          let out ← iter_loop cfg (.elem m) rest
          .ok (.elem e2 :: out)
      | .dummy => iter_loop cfg .dummy rest
    else if m.type ∈ cfg.ignore_madtypes then
      iter_loop cfg last rest
    else
      match last with
      | .dummy => iter_loop cfg (.elem m) rest
      | .elem e => do
        let out ← iter_loop cfg (.elem m) rest
        .ok (.elem e :: out)

/-- Embeds `MadLoader.iter_elements` (mad_loader.py:642): fail on an empty
expanded sequence, otherwise run the loop from the `Dummy` sentinel. -/
def iter_elements (cfg : Config) (seq : List MadElem) :
    Except IterError (List Pending) :=
  if seq.isEmpty then .error .emptySequence
  else iter_loop cfg .dummy seq

/-- Projection of a source record to what the drift-merging claim
observes: its name, its type and its numeric length. -/
structure DriftSummary where
  name : String
  type : String
  l : ℚ
  deriving DecidableEq, Repr

/-- Summary of a `MadElem` for the drift-merging claim. -/
def MadElem.summary (e : MadElem) : DriftSummary :=
  { name := e.name, type := e.type, l := get_value e.l }

/-- Modelled from the spec's words (claim C4), for comparison with
`iter_elements`: collapse every maximal run of consecutive drift records
into a single drift (keeping the first record of the run) whose length is
the exact sum of the run's lengths; all other records pass through. -/
def collapse_drift_runs : List DriftSummary → List DriftSummary
  | [] => []
  | m :: rest =>
    match collapse_drift_runs rest with
    | [] => [m]
    | m2 :: rest2 =>
      if m.type = "drift" ∧ m2.type = "drift" then
        { m with l := m.l + m2.l } :: rest2
      else
        m :: m2 :: rest2

theorem collapse_drift_runs_head (b : DriftSummary) (l : List DriftSummary) :
    ∃ q rest, collapse_drift_runs (b :: l)
      = { name := b.name, type := b.type, l := q } :: rest := by
  cases h : collapse_drift_runs l with
  | nil => exact ⟨b.l, [], by simp [collapse_drift_runs, h]⟩
  | cons c r =>
    by_cases hd : b.type = "drift" ∧ c.type = "drift"
    · exact ⟨b.l + c.l, r, by simp [collapse_drift_runs, h, hd]⟩
    · exact ⟨b.l, c :: r, by simp [collapse_drift_runs, h, hd]⟩

theorem collapse_drift_runs_merge (a b : DriftSummary) (l : List DriftSummary)
    (ha : a.type = "drift") (hb : b.type = "drift") :
    collapse_drift_runs (a :: b :: l)
      = collapse_drift_runs ({ a with l := a.l + b.l } :: l) := by
  cases h : collapse_drift_runs l with
  | nil =>
    simp only [collapse_drift_runs, h]
    simp [ha, hb]
  | cons c r =>
    by_cases hd : c.type = "drift"
    · simp only [collapse_drift_runs, h]
      simp [ha, hb, hd, add_assoc]
    · simp only [collapse_drift_runs, h]
      simp [ha, hb, hd]

theorem collapse_drift_runs_pass (a b : DriftSummary) (l : List DriftSummary)
    (hab : ¬ (a.type = "drift" ∧ b.type = "drift")) :
    collapse_drift_runs (a :: b :: l) = a :: collapse_drift_runs (b :: l) := by
  obtain ⟨q, rest, hh⟩ := collapse_drift_runs_head b l
  have hcond : ¬ (a.type = "drift"
      ∧ ({ name := b.name, type := b.type, l := q } : DriftSummary).type = "drift") := by
    intro hc
    exact hab ⟨hc.1, hc.2⟩
  calc collapse_drift_runs (a :: b :: l)
      = match collapse_drift_runs (b :: l) with
        | [] => [a]
        | m2 :: rest2 =>
          if a.type = "drift" ∧ m2.type = "drift" then
            { a with l := a.l + m2.l } :: rest2
          else a :: m2 :: rest2 := rfl
    _ = a :: collapse_drift_runs (b :: l) := by
        rw [hh]
        simp [hcond]

theorem iter_loop_drift_spec (cfg : Config) (hmd : cfg.merge_drifts = true)
    (hsm : cfg.skip_markers = false) (hmm : cfg.merge_multipoles = false)
    (hig : cfg.ignore_madtypes = []) :
    ∀ (seq : List MadElem) (e : MadElem),
      ∃ out : List MadElem,
        iter_loop cfg (.elem e) seq = .ok (out.map Pending.elem) ∧
        out.map MadElem.summary
          = collapse_drift_runs ((e :: seq).map MadElem.summary) := by
  intro seq
  induction seq with
  | nil =>
    intro e
    refine ⟨[e], rfl, ?_⟩
    simp [collapse_drift_runs]
  | cons m rest ih =>
    intro e
    by_cases hd : e.type = "drift" ∧ m.type = "drift"
    · obtain ⟨out, h1, h2⟩ := ih { e with l := e.l.addNum (get_value m.l) }
      refine ⟨out, ?_, ?_⟩
      · rw [iter_loop, if_neg (by simp [hsm]), if_pos ⟨hmd, hd.1, hd.2⟩]
        exact h1
      · rw [h2]
        have hmerge := collapse_drift_runs_merge e.summary m.summary
          (rest.map MadElem.summary) hd.1 hd.2
        simp only [List.map_cons] at hmerge ⊢
        rw [hmerge]
        simp [MadElem.summary, get_value_addNum]
    · obtain ⟨out, h1, h2⟩ := ih m
      refine ⟨e :: out, ?_, ?_⟩
      · rw [iter_loop, if_neg (by simp [hsm]),
          if_neg (fun hc => hd ⟨hc.2.1, hc.2.2⟩),
          if_neg (by simp [hmm]), if_neg (by simp [hig])]
        rw [show (iter_loop cfg (.elem m) rest >>= fun out =>
              Except.ok (Pending.elem e :: out)) =
            (iter_loop cfg (.elem m) rest).bind fun out =>
              Except.ok (Pending.elem e :: out) from rfl]
        rw [h1]
        rfl
      · have hpass := collapse_drift_runs_pass e.summary m.summary
          (rest.map MadElem.summary) hd
        simp only [List.map_cons] at hpass h2 ⊢
        rw [hpass, h2]

/-- C4: with drift-merging enabled (and the other discarding policies
off), the sequence of elements yielded by `iter_elements` is exactly the
source sequence with every maximal run of consecutive drifts collapsed to
one drift whose length is the exact sum of the run's lengths. -/
theorem iter_elements_merges_drift_runs (cfg : Config)
    (hmd : cfg.merge_drifts = true) (hsm : cfg.skip_markers = false)
    (hmm : cfg.merge_multipoles = false) (hig : cfg.ignore_madtypes = [])
    (seq : List MadElem) (hne : seq ≠ []) :
    ∃ out : List MadElem,
      iter_elements cfg seq = .ok (out.map Pending.elem) ∧
      out.map MadElem.summary = collapse_drift_runs (seq.map MadElem.summary) := by
  match seq, hne with
  | m :: rest, _ =>
    obtain ⟨out, h1, h2⟩ := iter_loop_drift_spec cfg hmd hsm hmm hig rest m
    refine ⟨out, ?_, by simpa using h2⟩
    rw [iter_elements, if_neg (by simp)]
    rw [iter_loop, if_neg (by simp [hsm]),
      if_neg (fun hc => by simpa [Pending.type] using hc.2.1),
      if_neg (fun hc => by simpa [Pending.type] using hc.2.1),
      if_neg (by simp [hig])]
    exact h1

/-- A drift source record of the given name and literal length. -/
def drift_elem (nm : String) (q : ℚ) : MadElem :=
  { name := nm, type := "drift", l := .num q }

/-- C4 witness: three consecutive drifts of lengths 1, 2 and 1/2 with
drift-merging enabled and no other elements yield a single drift of
length 7/2 = 3.5. -/
theorem iter_elements_merges_drift_runs_witness :
    ∃ out : List MadElem,
      iter_elements { merge_drifts := true }
          [drift_elem "d1" 1, drift_elem "d2" 2, drift_elem "d3" (1/2)]
        = .ok (out.map Pending.elem) ∧
      out.map MadElem.summary
        = collapse_drift_runs
            ([drift_elem "d1" 1, drift_elem "d2" 2,
              drift_elem "d3" (1/2)].map MadElem.summary) ∧
      collapse_drift_runs
          ([drift_elem "d1" 1, drift_elem "d2" 2,
            drift_elem "d3" (1/2)].map MadElem.summary)
        = [{ name := "d1", type := "drift", l := 7/2 }] := by
  obtain ⟨out, h1, h2⟩ := iter_elements_merges_drift_runs
    { merge_drifts := true } rfl rfl rfl rfl
    [drift_elem "d1" 1, drift_elem "d2" 2, drift_elem "d3" (1/2)]
    (by simp)
  refine ⟨out, h1, h2, ?_⟩
  norm_num [collapse_drift_runs, MadElem.summary, drift_elem, get_value]

/-- Tags of the xtrack element classes built by the embedded converters. -/
inductive XtType where
  | Drift | Marker | Multipole | Solenoid | SRotation | XYShift
  deriving DecidableEq, Repr

/-- An attribute value handed to a target-element constructor: a scalar
parameter (possibly expression-bearing), a plain number, a list of
numbers, or a natural (the multipole order). -/
inductive Attr where
  | val (v : Value)
  | num (q : ℚ)
  | list (xs : List ℚ)
  | nat (n : ℕ)
  deriving DecidableEq, Repr

/-- Embeds the builder data of `ElementBuilder` /
`ElementBuilderWithExpr` (mad_loader.py:302, 328): target name, class tag
and named attributes.  The two materialization strategies differ only in
how attributes are attached to the live element, which no verified
property observes, so one builder record covers both. -/
structure ElementBuilder where
  name : String
  type : XtType
  attrs : List (String × Attr)
  deriving DecidableEq, Repr

/-- A converter result entry: a plain builder, or the data of a
`CompoundElementBuilder` (mad_loader.py:340): name, core, entry
transforms, exit transforms, aperture builders. -/
inductive OutBuilder where
  | plain (b : ElementBuilder)
  | compound (name : String) (core entry_transform exit_transform aperture :
      List ElementBuilder)
  deriving DecidableEq, Repr

/-- Post-constructor state of `Alignment` (mad_loader.py:470): the tilt
angle (degrees) and the transverse offset. -/
structure Alignment where
  name : String
  tilt : ℚ
  dx : ℚ
  dy : ℚ
  deriving DecidableEq, Repr

/-- Embeds the `Alignment` constructor (mad_loader.py:471).  `deg` stands
for the irrational conversion factor `180/π` of `rad2deg`; every verified
property is independent of its value, and keeping it a parameter keeps
the development in ℚ and executable. -/
def alignment_of (deg : ℚ) (e : MadElem) (enable_align_errors : Bool)
    (custom_tilt : Option ℚ) : Alignment :=
  let t0 : ℚ := e.tilt
  let t1 := if t0 ≠ 0 then deg * t0 else t0
  let t2 := match custom_tilt with
    | some c => t1 + deg * c
    | none => t1
  match enable_align_errors, e.align_errors with
  | true, some ae =>
    { name := e.name, tilt := t2 + deg * ae.dpsi, dx := ae.dx, dy := ae.dy }
  | _, _ => { name := e.name, tilt := t2, dx := 0, dy := 0 }

/-- Embeds `Alignment.entry` (mad_loader.py:493): a rotation builder when
the tilt is nonzero, then an offset builder when the offset is nonzero. -/
def Alignment.entry (a : Alignment) : List ElementBuilder :=
  (if a.tilt ≠ 0 then
    [{ name := a.name ++ "_tilt_entry", type := .SRotation,
       attrs := [("angle", .num a.tilt)] }]
   else []) ++
  (if a.dx ≠ 0 ∨ a.dy ≠ 0 then
    [{ name := a.name ++ "_offset_entry", type := .XYShift,
       attrs := [("dx", .num a.dx), ("dy", .num a.dy)] }]
   else [])

/-- Embeds `Alignment.exit` (mad_loader.py:514): the negated offset
builder when the offset is nonzero, then the negated rotation builder
when the tilt is nonzero. -/
def Alignment.exit (a : Alignment) : List ElementBuilder :=
  (if a.dx ≠ 0 ∨ a.dy ≠ 0 then
    [{ name := a.name ++ "_offset_exit", type := .XYShift,
       attrs := [("dx", .num (-a.dx)), ("dy", .num (-a.dy))] }]
   else []) ++
  (if a.tilt ≠ 0 then
    [{ name := a.name ++ "_tilt_exit", type := .SRotation,
       attrs := [("angle", .num (-a.tilt))] }]
   else [])

/-- Failures a converter can raise. -/
inductive ConvError where
  | thin (err : ThinError)
  | unsupportedType (t : String)
  | apertureNotEmbedded
  deriving DecidableEq, Repr

/-- A converter's output: the builders, and any diagnostic warnings it
printed (the source prints warnings with `_print`; no embedded converter
other than the solenoid one does). -/
abbrev ConvResult := List OutBuilder × List String

/-- Embeds `MadLoader.make_compound_elem` (mad_loader.py:770) for the
aperture-free case.  The aperture branch (`enable_apertures` together
with an element that has an aperture) is not embedded, and is reported
as `apertureNotEmbedded`; no verified property enters it. -/
def make_compound_elem (deg : ℚ) (cfg : Config)
    (xtrack_el : List ElementBuilder) (e : MadElem)
    (custom_tilt : Option ℚ) : Except ConvError (List OutBuilder) :=
  if cfg.enable_apertures = true ∧ e.has_aperture = true then
    .error .apertureNotEmbedded
  else
    let align := alignment_of deg e cfg.enable_align_errors custom_tilt
    let elem_list := align.entry ++ xtrack_el ++ align.exit
    if cfg.use_compound_elements = false then
      .ok (elem_list.map .plain)
    else
      match elem_list with
      | [b] =>
        if b.type = .Drift ∧ e.name.startsWith "drift_" = true then
          .ok [.plain b]
        else if b.type = .Marker then
          .ok [.plain b]
        else
          .ok [.compound e.name xtrack_el align.entry align.exit []]
      | _ => .ok [.compound e.name xtrack_el align.entry align.exit []]

/-- Embeds `convert_drift` (mad_loader.py:1064): a bare drift builder,
not compounded. -/
def convert_drift (e : MadElem) : Except ConvError ConvResult :=
  .ok ([.plain { name := e.name, type := .Drift,
                 attrs := [("length", .val e.l)] }], [])

/-- Embeds `convert_marker` (mad_loader.py:1067). -/
def convert_marker (deg : ℚ) (cfg : Config) (e : MadElem) :
    Except ConvError ConvResult := do
  let bs ← make_compound_elem deg cfg
    [{ name := e.name, type := .Marker, attrs := [] }] e none
  .ok (bs, [])

/-- Embeds `convert_drift_like` (mad_loader.py:1071): a drift builder of
the element's length, compounded. -/
def convert_drift_like (deg : ℚ) (cfg : Config) (e : MadElem) :
    Except ConvError ConvResult := do
  let bs ← make_compound_elem deg cfg
    [{ name := e.name, type := .Drift, attrs := [("length", .val e.l)] }] e none
  .ok (bs, [])

/-- Warning printed when a zero-length solenoid degrades to a drift
(mad_loader.py:1085). -/
def solenoid_warning (name : String) : String :=
  "Warning: Thin solenoids are not yet implemented, reverting to importing `"
    ++ name ++ "` as a drift."

/-- Embeds `convert_solenoid` (mad_loader.py:1083): a zero-length
solenoid is imported as a drift with a warning, a thick one becomes a
Solenoid builder. -/
def convert_solenoid (deg : ℚ) (cfg : Config) (e : MadElem) :
    Except ConvError ConvResult :=
  if get_value e.l = 0 then do
    let (bs, _) ← convert_drift_like deg cfg e
    .ok (bs, [solenoid_warning e.name])
  else do
    let bs ← make_compound_elem deg cfg
      [{ name := e.name, type := .Solenoid,
         attrs := [("length", .val e.l), ("ks", .num e.ks),
                   ("ksi", .num e.ksi)] }] e none
    .ok (bs, [])

/-- Embeds `non_zero_len` (mad_loader.py:119): one past the index of the
last truthy entry, scanning from the end. -/
def non_zero_len (lst : List ℚ) : ℕ :=
  match lst.reverse.findIdx? (fun x => decide (x ≠ 0)) with
  | some ii => lst.length - ii
  | none => 0

/-- Embeds `convert_multipole` (mad_loader.py:1098): thin check, maximal
significant strength length, optional field-error folding via
`add_lists`, and the dipole fallback `hxl = knl[0]` when the angle is
zero. -/
def convert_multipole (deg : ℚ) (cfg : Config) (e : MadElem) :
    Except ConvError ConvResult :=
  match assert_element_is_thin e.name [e.type] e.l cfg.allow_thick with
  | some err => .error (.thin err)
  | none => do
    let lmax0 := max (max (non_zero_len e.knl) (non_zero_len e.ksl)) 1
    let (knl, ksl, lmax) :=
      match e.field_errors, cfg.enable_field_errors with
      | some fe, true =>
        let lmax2 := max (max lmax0 (non_zero_len fe.dkn)) (non_zero_len fe.dks)
        (add_lists e.knl fe.dkn lmax2, add_lists e.ksl fe.dks lmax2, lmax2)
      | _, _ => (e.knl, e.ksl, lmax0)
    let hattrs :=
      if e.angle ≠ 0 then [("hxl", Attr.num e.angle)]
      else [("hxl", Attr.num (e.knl.getD 0 0)), ("hyl", Attr.num (e.ksl.getD 0 0))]
    let el : ElementBuilder :=
      { name := e.name, type := .Multipole,
        attrs := [("order", .nat (lmax - 1)), ("knl", .list (knl.take lmax)),
                  ("ksl", .list (ksl.take lmax))]
                 ++ hattrs ++ [("length", .num e.lrad)] }
    let bs ← make_compound_elem deg cfg [el] e none
    .ok (bs, [])

/-- Embeds the converter lookup
`getattr(self, "convert_" + el.type, None)` (mad_loader.py:699) for the
embedded subset of element types.  No `add_<type>` method exists in the
source, so the adder lookup always fails; a type with no converter — in
particular the sentinel's `"None"` — is unsupported, exactly as in the
source. -/
def dispatch (deg : ℚ) (cfg : Config) (t : String) :
    Option (MadElem → Except ConvError ConvResult) :=
  if t = "drift" then some convert_drift
  else if t = "marker" then some (convert_marker deg cfg)
  else if t = "multipole" then some (convert_multipole deg cfg)
  else if t = "solenoid" then some (convert_solenoid deg cfg)
  else if t = "monitor" ∨ t = "hmonitor" ∨ t = "vmonitor" ∨ t = "collimator"
      ∨ t = "rcollimator" ∨ t = "elseparator" ∨ t = "instrument" then
    some (convert_drift_like deg cfg)
  else none

/-- A materialized element of the line: its class tag and attributes. -/
structure XtElem where
  type : XtType
  attrs : List (String × Attr)
  deriving DecidableEq, Repr

/-- The growing target collection: insertion-ordered `(name, element)`
pairs. -/
abbrev Line := List (String × XtElem)

/-- Names already inserted (the keys of `line.element_dict`). -/
def line_names (line : Line) : List String := line.map Prod.fst

/-- Embeds `ElementBuilder.add_to_line` (mad_loader.py:322): materialize
under a collision-free name. -/
def add_builder (line : Line) (b : ElementBuilder) : Line :=
  line ++ [(generate_repeated_name (line_names line) b.name,
            { type := b.type, attrs := b.attrs })]

/-- Embeds `CompoundElementBuilder.add_to_line` (mad_loader.py:357):
entry marker, aperture, entry transforms, core, exit transforms, exit
marker, in that order. -/
def add_out_builder (line : Line) : OutBuilder → Line
  | .plain b => add_builder line b
  | .compound nm core entryT exitT aper =>
    let start_marker : ElementBuilder :=
      { name := nm ++ "_entry", type := .Marker, attrs := [] }
    let end_marker : ElementBuilder :=
      { name := nm ++ "_exit", type := .Marker, attrs := [] }
    ([start_marker] ++ aper ++ entryT ++ core ++ exitT ++ [end_marker]).foldl
      add_builder line

/-- Failures of `make_line`: an iteration error or a conversion error. -/
inductive LineError where
  | iter (e : IterError)
  | conv (e : ConvError)
  deriving DecidableEq, Repr

/-- Embeds `MadLoader.make_line` (mad_loader.py:675) over the embedded
converter subset: iterate the sequence, dispatch every yielded view by
its type string, materialize the produced builders in order, collect the
warnings. -/
def make_line (deg : ℚ) (cfg : Config) (seq : List MadElem) :
    Except LineError (Line × List String) := do
  let pendings ← (iter_elements cfg seq).mapError .iter
  pendings.foldlM
    (fun (acc : Line × List String) p =>
      match dispatch deg cfg p.type with
      | none => .error (.conv (.unsupportedType p.type))
      | some conv =>
        match p with
        | .dummy => .error (.conv (.unsupportedType "None"))
        | .elem e => do
          let (bs, ws) ← (conv e).mapError .conv
          .ok (bs.foldl add_out_builder acc.1, acc.2 ++ ws))
    ([], [])

theorem iter_loop_all_discarded (cfg : Config) :
    ∀ seq : List MadElem,
      (∀ m ∈ seq, (cfg.skip_markers = true ∧ m.is_empty_marker = true) ∨
        m.type ∈ cfg.ignore_madtypes) →
      iter_loop cfg .dummy seq = .ok [.dummy] := by
  intro seq
  induction seq with
  | nil => intro _; rfl
  | cons m rest ih =>
    intro hdisc
    have hm := hdisc m (by simp)
    have hrest : ∀ m2 ∈ rest,
        (cfg.skip_markers = true ∧ m2.is_empty_marker = true) ∨
        m2.type ∈ cfg.ignore_madtypes :=
      fun m2 h2 => hdisc m2 (by simp [h2])
    by_cases hskip : cfg.skip_markers = true ∧ m.is_empty_marker = true
    · rw [iter_loop, if_pos hskip]
      exact ih hrest
    · have hig : m.type ∈ cfg.ignore_madtypes := hm.resolve_left hskip
      rw [iter_loop, if_neg hskip,
        if_neg (fun hc => by simpa [Pending.type] using hc.2.1),
        if_neg (fun hc => by simpa [Pending.type] using hc.2.1),
        if_pos hig]
      exact ih hrest

/-- C10: when the source sequence is non-empty but every record is
discarded (skipped as an empty marker, or in the ignore-type set), the
terminal flush of `iter_elements` still yields the `Dummy` sentinel —
unlike the mid-loop flush it does not test the pending slot — and
`make_line` consequently fails with the unsupported-element-type error
for the sentinel's type string `"None"` instead of returning an empty
line. -/
theorem make_line_all_discarded (deg : ℚ) (cfg : Config) (seq : List MadElem)
    (hne : seq ≠ [])
    (hdisc : ∀ m ∈ seq, (cfg.skip_markers = true ∧ m.is_empty_marker = true) ∨
      m.type ∈ cfg.ignore_madtypes) :
    iter_elements cfg seq = .ok [.dummy] ∧
    make_line deg cfg seq = .error (.conv (.unsupportedType "None")) := by
  have hiter : iter_elements cfg seq = .ok [.dummy] := by
    rw [iter_elements, if_neg (by simpa using hne)]
    exact iter_loop_all_discarded cfg seq hdisc
  refine ⟨hiter, ?_⟩
  rw [make_line, hiter]
  rfl

/-- A source record whose type is in the witness's ignore set. -/
def ignored_elem : MadElem :=
  { name := "i1", type := "instrument", l := .num 0 }

/-- C10 witness: a one-record sequence whose only element is ignored
makes `iter_elements` yield the sentinel and `make_line` fail with the
unsupported-type error for `"None"`. -/
theorem make_line_all_discarded_witness :
    iter_elements { ignore_madtypes := ["instrument"] } [ignored_elem]
      = .ok [.dummy] ∧
    make_line 1 { ignore_madtypes := ["instrument"] } [ignored_elem]
      = .error (.conv (.unsupportedType "None")) :=
  make_line_all_discarded 1 { ignore_madtypes := ["instrument"] } [ignored_elem]
    (by simp)
    (by
      intro m hm
      simp only [List.mem_singleton] at hm
      subst hm
      right
      simp [ignored_elem])

theorem warnings_of_pure_bind {x : Except ConvError (List OutBuilder)}
    {r : ConvResult}
    (h : (do let bs ← x; Except.ok (bs, ([] : List String))) = .ok r) :
    r.2 = [] := by
  cases x with
  | error er => exact Except.noConfusion h
  | ok bs =>
    injection h with h2
    exact h2 ▸ rfl

/-- C9: converting a zero-length solenoid with apertures and alignment
errors disabled never fails: it emits the degradation warning and a
single drift builder of the element's (zero-valued) length as the sole
core element of the produced compound; and among the embedded
conversions this is the only one that produces a warning — every other
converter, and the nonzero-length solenoid path, returns an empty
warning list. -/
theorem convert_solenoid_zero_length_degrades (deg : ℚ) (cfg : Config)
    (e : MadElem) (hl : get_value e.l = 0) (htilt : e.tilt = 0)
    (hap : cfg.enable_apertures = false) (hae : cfg.enable_align_errors = false)
    (hcomp : cfg.use_compound_elements = true)
    (hnm : e.name.startsWith "drift_" = false) :
    convert_solenoid deg cfg e =
      .ok ([.compound e.name
              [{ name := e.name, type := .Drift,
                 attrs := [("length", .val e.l)] }] [] [] []],
           [solenoid_warning e.name]) ∧
    value_if_expr e.l = 0 ∧
    (∀ e2 r, convert_drift e2 = .ok r → r.2 = []) ∧
    (∀ e2 r, convert_marker deg cfg e2 = .ok r → r.2 = []) ∧
    (∀ e2 r, convert_drift_like deg cfg e2 = .ok r → r.2 = []) ∧
    (∀ e2 r, convert_multipole deg cfg e2 = .ok r → r.2 = []) ∧
    (∀ e2 r, get_value e2.l ≠ 0 → convert_solenoid deg cfg e2 = .ok r →
      r.2 = []) := by
  refine ⟨?_, ?_, ?_, ?_, ?_, ?_, ?_⟩
  · have halign : alignment_of deg e cfg.enable_align_errors none
        = { name := e.name, tilt := 0, dx := 0, dy := 0 } := by
      rw [hae]
      simp [alignment_of, htilt]
    have hmc : make_compound_elem deg cfg
        [{ name := e.name, type := XtType.Drift,
           attrs := [("length", Attr.val e.l)] }] e none
        = .ok [.compound e.name
            [{ name := e.name, type := XtType.Drift,
               attrs := [("length", Attr.val e.l)] }] [] [] []] := by
      rw [make_compound_elem, if_neg (by simp [hap]), halign]
      simp [Alignment.entry, Alignment.exit, hcomp, hnm]
    have hdl : convert_drift_like deg cfg e
        = .ok ([.compound e.name
            [{ name := e.name, type := XtType.Drift,
               attrs := [("length", Attr.val e.l)] }] [] [] []], []) := by
      rw [convert_drift_like, hmc]
      rfl
    rw [convert_solenoid, if_pos hl, hdl]
    rfl
  · have hvg : value_if_expr e.l = get_value e.l := by
      cases e.l <;> rfl
    rw [hvg]
    exact hl
  · intro e2 r hr
    simp only [convert_drift, Except.ok.injEq] at hr
    rw [← hr]
  · intro e2 r hr
    simp only [convert_marker] at hr
    exact warnings_of_pure_bind hr
  · intro e2 r hr
    simp only [convert_drift_like] at hr
    exact warnings_of_pure_bind hr
  · intro e2 r hr
    cases hthin : assert_element_is_thin e2.name [e2.type] e2.l
        cfg.allow_thick with
    | some err =>
      simp only [convert_multipole, hthin] at hr
      exact Except.noConfusion hr
    | none =>
      simp only [convert_multipole, hthin] at hr
      exact warnings_of_pure_bind hr
  · intro e2 r hne2 hr
    simp only [convert_solenoid, if_neg hne2] at hr
    exact warnings_of_pure_bind hr

/-- A zero-length solenoid record. -/
def solenoid_elem : MadElem :=
  { name := "sol1", type := "solenoid", l := .num 0 }

/-- C9 witness: the concrete zero-length solenoid `sol1`, with the
default options (apertures and alignment errors disabled), degrades to a
compound holding one drift builder of length value 0, together with the
warning. -/
theorem convert_solenoid_zero_length_degrades_witness :
    convert_solenoid 1 {} solenoid_elem =
      .ok ([.compound "sol1"
              [{ name := "sol1", type := .Drift,
                 attrs := [("length", .val (.num 0))] }] [] [] []],
           [solenoid_warning "sol1"]) ∧
    value_if_expr solenoid_elem.l = 0 :=
  ⟨(convert_solenoid_zero_length_degrades 1 {} solenoid_elem rfl rfl rfl rfl
      rfl (by decide)).1,
   (convert_solenoid_zero_length_degrades 1 {} solenoid_elem rfl rfl rfl rfl
      rfl (by decide)).2.1⟩

/-- Geometric transform data carried by an alignment builder: an
`SRotation` by an angle (degrees) or an `XYShift` by an offset. -/
inductive Transform where
  | rot (angle : ℚ)
  | shift (dx dy : ℚ)
  deriving DecidableEq, Repr

/-- The transform of a builder produced by `Alignment.entry`/`exit`. -/
def builder_transform (b : ElementBuilder) : Option Transform :=
  match b.type, b.attrs with
  | .SRotation, [("angle", .num a)] => some (.rot a)
  | .XYShift, [("dx", .num dx), ("dy", .num dy)] => some (.shift dx dy)
  | _, _ => none

/-- Elementwise inverse transform: negated rotation angle, negated
offset. -/
def Transform.inv : Transform → Transform
  | .rot a => .rot (-a)
  | .shift dx dy => .shift (-dx) (-dy)

/-- Action of a transform on the transverse plane (the rotation angle is
carried in degrees, as the builders hold it). -/
noncomputable def apply_transform : Transform → ℝ × ℝ → ℝ × ℝ
  | .rot a, p =>
    ((Real.cos ((a : ℝ) * Real.pi / 180)) * p.1
       - (Real.sin ((a : ℝ) * Real.pi / 180)) * p.2,
     (Real.sin ((a : ℝ) * Real.pi / 180)) * p.1
       + (Real.cos ((a : ℝ) * Real.pi / 180)) * p.2)
  | .shift dx dy, p => (p.1 + (dx : ℝ), p.2 + (dy : ℝ))

/-- Action of a builder sequence applied in traversal order; a builder
carrying no transform acts as the identity (the alignment sequences only
contain transforms). -/
noncomputable def apply_builders (bs : List ElementBuilder) (p : ℝ × ℝ) : ℝ × ℝ :=
  bs.foldl (fun q b =>
    match builder_transform b with
    | some t => apply_transform t q
    | none => q) p

theorem apply_rot_cancel (q : ℚ) (p : ℝ × ℝ) :
    apply_transform (.rot (-q)) (apply_transform (.rot q) p) = p := by
  obtain ⟨x, y⟩ := p
  have harg : ((-q : ℚ) : ℝ) * Real.pi / 180 = -((q : ℝ) * Real.pi / 180) := by
    push_cast
    ring
  have hpyth := Real.sin_sq_add_cos_sq ((q : ℝ) * Real.pi / 180)
  simp only [apply_transform, harg, Real.cos_neg, Real.sin_neg]
  rw [Prod.mk.injEq]
  constructor
  · linear_combination x * hpyth
  · linear_combination y * hpyth

theorem apply_shift_cancel (dx dy : ℚ) (p : ℝ × ℝ) :
    apply_transform (.shift (-dx) (-dy)) (apply_transform (.shift dx dy) p)
      = p := by
  obtain ⟨x, y⟩ := p
  simp only [apply_transform]
  rw [Prod.mk.injEq]
  constructor <;> (push_cast; ring)

theorem apply_builders_nil (p : ℝ × ℝ) : apply_builders [] p = p := rfl

theorem apply_builders_cons (b : ElementBuilder) (bs : List ElementBuilder)
    (p : ℝ × ℝ) :
    apply_builders (b :: bs) p
      = apply_builders bs
          (match builder_transform b with
           | some t => apply_transform t p
           | none => p) := rfl

theorem builder_transform_rot (nm : String) (a : ℚ) :
    builder_transform
      { name := nm, type := .SRotation, attrs := [("angle", .num a)] }
      = some (.rot a) := rfl

theorem builder_transform_shift (nm : String) (dx dy : ℚ) :
    builder_transform
      { name := nm, type := .XYShift,
        attrs := [("dx", .num dx), ("dy", .num dy)] }
      = some (.shift dx dy) := rfl

/-- C5: for every alignment, the transforms of `exit` are exactly the
reversed elementwise inverses of the transforms of `entry` (so both are
emitted under the same nonzero conditions, with the rotation and the
offset negated and the order reversed), and traversing the entry sequence
followed by the exit sequence is the identity transform of the plane. -/
theorem alignment_entry_exit_inverse (a : Alignment) :
    (a.exit.map builder_transform
      = (a.entry.map builder_transform).reverse.map (Option.map Transform.inv)) ∧
    (∀ p : ℝ × ℝ, apply_builders (a.entry ++ a.exit) p = p) := by
  by_cases htl : a.tilt ≠ 0 <;> by_cases hoff : a.dx ≠ 0 ∨ a.dy ≠ 0
  · have hcat : a.entry ++ a.exit =
        [{ name := a.name ++ "_tilt_entry", type := .SRotation,
           attrs := [("angle", .num a.tilt)] },
         { name := a.name ++ "_offset_entry", type := .XYShift,
           attrs := [("dx", .num a.dx), ("dy", .num a.dy)] },
         { name := a.name ++ "_offset_exit", type := .XYShift,
           attrs := [("dx", .num (-a.dx)), ("dy", .num (-a.dy))] },
         { name := a.name ++ "_tilt_exit", type := .SRotation,
           attrs := [("angle", .num (-a.tilt))] }] := by
      simp [Alignment.entry, Alignment.exit, htl, hoff]
    refine ⟨?_, ?_⟩
    · simp [Alignment.entry, Alignment.exit, htl, hoff, builder_transform,
        Transform.inv]
    · intro p
      rw [hcat]
      simp only [apply_builders_cons, apply_builders_nil,
        builder_transform_rot, builder_transform_shift]
      rw [apply_shift_cancel, apply_rot_cancel]
  · have hcat : a.entry ++ a.exit =
        [{ name := a.name ++ "_tilt_entry", type := .SRotation,
           attrs := [("angle", .num a.tilt)] },
         { name := a.name ++ "_tilt_exit", type := .SRotation,
           attrs := [("angle", .num (-a.tilt))] }] := by
      simp [Alignment.entry, Alignment.exit, htl, hoff]
    refine ⟨?_, ?_⟩
    · simp [Alignment.entry, Alignment.exit, htl, hoff, builder_transform,
        Transform.inv]
    · intro p
      rw [hcat]
      simp only [apply_builders_cons, apply_builders_nil,
        builder_transform_rot]
      rw [apply_rot_cancel]
  · have hcat : a.entry ++ a.exit =
        [{ name := a.name ++ "_offset_entry", type := .XYShift,
           attrs := [("dx", .num a.dx), ("dy", .num a.dy)] },
         { name := a.name ++ "_offset_exit", type := .XYShift,
           attrs := [("dx", .num (-a.dx)), ("dy", .num (-a.dy))] }] := by
      simp [Alignment.entry, Alignment.exit, htl, hoff]
    refine ⟨?_, ?_⟩
    · simp [Alignment.entry, Alignment.exit, htl, hoff, builder_transform,
        Transform.inv]
    · intro p
      rw [hcat]
      simp only [apply_builders_cons, apply_builders_nil,
        builder_transform_shift]
      rw [apply_shift_cancel]
  · have hcat : a.entry ++ a.exit = [] := by
      simp [Alignment.entry, Alignment.exit, htl, hoff]
    refine ⟨?_, ?_⟩
    · simp [Alignment.entry, Alignment.exit, htl, hoff]
    · intro p
      rw [hcat, apply_builders_nil]

/-- The `LimitPolygon` builder data produced by the octagon aperture
conversion. -/
structure PolygonAper where
  name : String
  x_vertices : List ℝ
  y_vertices : List ℝ

/-- The vertex list of a polygon aperture: the x array zipped with the
y array. -/
def PolygonAper.vertices (p : PolygonAper) : List (ℝ × ℝ) :=
  p.x_vertices.zip p.y_vertices

/-- The octagon polygon of `convert_octagon` (mad_loader.py:1038): the
defining vertices are `V1 = (a0, a0·tan a2)` and `V2 = (a1/tan a3, a1)`
and the eight vertices are their reflected copies, in the source's
order. -/
noncomputable def octagon_poly (nm : String) (a0 a1 a2 a3 : ℝ) : PolygonAper :=
  { name := nm ++ "_aper",
    x_vertices := [a0, a1 / Real.tan a3, -(a1 / Real.tan a3), -a0,
                   -a0, -(a1 / Real.tan a3), a1 / Real.tan a3, a0],
    y_vertices := [a0 * Real.tan a2, a1, a1, a0 * Real.tan a2,
                   -(a0 * Real.tan a2), -a1, -a1, -(a0 * Real.tan a2)] }

/-- Embeds `convert_octagon` (mad_loader.py:1038) over real aperture
parameters (the source notes that expressions would fail here): one
polygon builder named `<name>_aper`. -/
noncomputable def convert_octagon (nm : String) (a0 a1 a2 a3 : ℝ) :
    List PolygonAper :=
  [octagon_poly nm a0 a1 a2 a3]

/-- C8: octagon conversion emits a single polygon aperture with exactly 8
vertices; the first vertex is `V1 = (a0, a0·tan a2)` (so for a0 = 0.05,
a2 = 0.3 it is `(0.05, 0.05·tan 0.3)`), the second is
`V2 = (a1/tan a3, a1)`, and the vertex set is symmetric under reflection
across the y-axis and across the x-axis. -/
theorem convert_octagon_spec (nm : String) (a0 a1 a2 a3 : ℝ) :
    convert_octagon nm a0 a1 a2 a3 = [octagon_poly nm a0 a1 a2 a3] ∧
    (octagon_poly nm a0 a1 a2 a3).x_vertices.length = 8 ∧
    (octagon_poly nm a0 a1 a2 a3).y_vertices.length = 8 ∧
    (octagon_poly nm a0 a1 a2 a3).vertices.length = 8 ∧
    (octagon_poly nm a0 a1 a2 a3).vertices.getD 0 (0, 0)
      = (a0, a0 * Real.tan a2) ∧
    (octagon_poly nm a0 a1 a2 a3).vertices.getD 1 (0, 0)
      = (a1 / Real.tan a3, a1) ∧
    (∀ p ∈ (octagon_poly nm a0 a1 a2 a3).vertices,
      (-p.1, p.2) ∈ (octagon_poly nm a0 a1 a2 a3).vertices) ∧
    (∀ p ∈ (octagon_poly nm a0 a1 a2 a3).vertices,
      (p.1, -p.2) ∈ (octagon_poly nm a0 a1 a2 a3).vertices) := by
  have hv : (octagon_poly nm a0 a1 a2 a3).vertices
      = [(a0, a0 * Real.tan a2), (a1 / Real.tan a3, a1),
         (-(a1 / Real.tan a3), a1), (-a0, a0 * Real.tan a2),
         (-a0, -(a0 * Real.tan a2)), (-(a1 / Real.tan a3), -a1),
         (a1 / Real.tan a3, -a1), (a0, -(a0 * Real.tan a2))] := rfl
  refine ⟨rfl, rfl, rfl, rfl, rfl, rfl, ?_, ?_⟩
  · intro p hp
    rw [hv] at hp ⊢
    simp only [List.mem_cons, List.not_mem_nil, or_false] at hp
    rcases hp with rfl | rfl | rfl | rfl | rfl | rfl | rfl | rfl <;>
      simp [neg_neg]
  · intro p hp
    rw [hv] at hp ⊢
    simp only [List.mem_cons, List.not_mem_nil, or_false] at hp
    rcases hp with rfl | rfl | rfl | rfl | rfl | rfl | rfl | rfl <;>
      simp [neg_neg]

/-- C2: the nonzero-test predicate is two-path: a symbolic expression node
maps to `true` whatever its current numeric value (including 0), and a
plain numeric value maps to `true` exactly when it is nonzero. -/
theorem nonzero_or_expr_two_path :
    (∀ v : ℚ, nonzero_or_expr (Value.expr v) = true) ∧
    (∀ q : ℚ, nonzero_or_expr (Value.num q) = true ↔ q ≠ 0) := by
  constructor
  · intro v
    rfl
  · intro q
    simp [nonzero_or_expr, is_expr]

end MadLoader
